import Mathlib

/-!
Verification development for the peon-ping hook handler
(`hooks/scripts/peon.py`).

The Python handler is a short-lived process: it parses one event from
stdin, loads a JSON config and a JSON state document, classifies the
event into a sound category / status label / title marker / notification
decision, optionally picks a sound from the active pack's manifest, and
persists the state document back.

This file gives a shallow embedding of the decision core:

* pure functions of the source (`load_json`, `check_annoyed`,
  `pick_sound`, the classification chain of `main`) become Lean
  functions, translated line by line;
* the environment the process samples (file contents, the pause marker,
  `time.time()`, `random.choice`, the focus probe, `os.path.isfile`)
  becomes explicit parameters collected in `Env`;
* the observable effects of one invocation (terminal-title write, the
  sound file handed to the player, the desktop notification, the state
  document saved to disk) become the `Outcome` record; paths where the
  source `return`s before reaching those effects produce `noOutcome`;
* the exceptions the core can actually raise on well-typed documents
  are modelled with `Except`: `random.choice` on an empty pool inside
  `pick_sound` (an `IndexError`), and, inside `load_json`, decoding a
  file whose bytes are not valid UTF-8 (a `UnicodeDecodeError`, which
  is not in the `except` tuple); an uncaught exception makes the
  Python process exit non-zero, captured by `exitCode`.

Modelling conventions: Python dicts become association lists looked up
with `lookupD` (first binding wins, default on a missing key, matching
`dict.get`); the Python `set` used for `agent_sessions` becomes a list
with insert-if-absent (`addSession`) -- the set's iteration order is
unspecified in Python, so only membership is meaningful; epoch times and
the JSON integers of the config are `Int`; `random.choice(pool)` is
`pool[r % pool.length]` for an arbitrary draw `r : Nat`, which is the
uniform distribution on the pool when `r` is uniform on a large range;
`str.isalnum` is modelled on ASCII (`Char.isAlphanum`), the characters
the claims exercise; `os.path.basename`/`os.path.join` are modelled with
POSIX separators.
-/

set_option autoImplicit false

/-- Lookup in an association list with a default, modelling Python's
`dict.get(key, default)`. -/
def lookupD {α : Type} (m : List (String × α)) (k : String) (d : α) : α :=
  match m.find? (fun p => p.1 == k) with
  | some p => p.2
  | none => d

/-- Update-or-append in an association list, modelling Python's
`dict[key] = value` (insertion order preserved, existing key overwritten
in place). -/
def setAssoc {α : Type} (m : List (String × α)) (k : String) (v : α) :
    List (String × α) :=
  if m.any (fun p => p.1 == k) then
    m.map (fun p => if p.1 == k then (k, v) else p)
  else
    m ++ [(k, v)]

/-- A JSON document, for the generic `load_json` contract. -/
inductive Json where
  | null : Json
  | jbool : Bool → Json
  | jnum : Int → Json
  | jstr : String → Json
  | jarr : List Json → Json
  | jobj : List (String × Json) → Json

/-- What opening and parsing a file can come to: the three exception
classes `load_json` catches (`FileNotFoundError`, `json.JSONDecodeError`,
`OSError`), the one it does not -- a file whose bytes are not valid
UTF-8 makes the decode inside the `try` raise `UnicodeDecodeError`, a
`ValueError` that is in none of the three caught classes -- or a
successfully parsed document. -/
inductive ReadResult (α : Type) where
  | fileNotFound : ReadResult α
  | decodeError : ReadResult α
  | osError : ReadResult α
  | unicodeError : ReadResult α
  | parsed : α → ReadResult α

/-- The exceptions the embedded core can raise on well-typed
documents: `random.choice([])` inside `pick_sound` (`IndexError`), and
decoding a non-UTF-8 file inside `load_json` (`UnicodeDecodeError`,
absent from its `except` tuple). -/
inductive PyErr where
  | indexError : PyErr
  | unicodeDecodeError : PyErr
deriving DecidableEq, Repr

/-- Embeds `load_json(path, default=None)`: return the parsed document;
on any of the three caught exceptions return `default if default is not
None else {}`; on a non-UTF-8 file the `UnicodeDecodeError` escapes the
`except` clause uncaught. -/
def load_json (r : ReadResult Json) (default : Option Json) : Except PyErr Json :=
  match r with
  | .parsed d => .ok d
  | .unicodeError => .error .unicodeDecodeError
  | .fileNotFound => .ok (match default with
    | some d => d
    | none => Json.jobj [])
  | .decodeError => .ok (match default with
    | some d => d
    | none => Json.jobj [])
  | .osError => .ok (match default with
    | some d => d
    | none => Json.jobj [])

/-- One entry of a CESP manifest category's `sounds` list (the handler
reads only its `file` key). -/
structure Sound where
  file : String
deriving DecidableEq, Repr

/-- The parsed sound-pack manifest `openpeon.json`, reduced to the path
the handler reads: `manifest.get('categories', {}).get(cat, {}).get('sounds', [])`.
A missing manifest is the empty list of categories. -/
structure Manifest where
  categories : List (String × List Sound)
deriving DecidableEq, Repr

/-- The parsed config document. Every field is optional because `main`
reads each with `config.get(key, default)`. The `volume` field is not
modelled: it is only forwarded to the external audio player, an
out-of-scope collaborator. -/
structure Config where
  enabled : Option Bool
  active_pack : Option String
  desktop_notifications : Option Bool
  annoyed_threshold : Option Int
  annoyed_window_seconds : Option Int
  categories : Option (List (String × Bool))
deriving Repr

/-- The fallback config literal passed to `load_json` for the config
path in `main` (volume omitted, see `Config`). -/
def defaultConfig : Config :=
  { enabled := some true
    active_pack := some "peon"
    desktop_notifications := some true
    annoyed_threshold := some 3
    annoyed_window_seconds := some 10
    categories := some [] }

/-- The persistent state document: `last_played` per category,
`prompt_timestamps` for the burst detector, `agent_sessions` for
suppression. A missing state file is `emptyState`. -/
structure State where
  last_played : List (String × String)
  prompt_timestamps : List Int
  agent_sessions : List String
deriving DecidableEq, Repr

/-- The empty state document `{}`. -/
def emptyState : State :=
  { last_played := [], prompt_timestamps := [], agent_sessions := [] }

/-- The event parsed from stdin; each field is read in `main` with
`event.get(key, '')`. -/
structure Event where
  hook_event_name : Option String
  notification_type : Option String
  cwd : Option String
  session_id : Option String
  permission_mode : Option String
deriving DecidableEq, Repr

/-- Embeds `check_annoyed(state, threshold, window_sec)`: prune stored
timestamps to those with `now - t < window_sec`, append `now`, store the
result, and report whether the new count reaches the threshold. `now`
(`time.time()` in the source) is passed explicitly. -/
def check_annoyed (state : State) (threshold window_sec now : Int) :
    State × Bool :=
  let ts := state.prompt_timestamps.filter (fun t => now - t < window_sec)
  let ts := ts ++ [now]
  ({ state with prompt_timestamps := ts }, decide (threshold ≤ (ts.length : Int)))

/-- Embeds `pick_sound(pack_dir, category, state)`. The manifest is the
parsed `openpeon.json` of `pack_dir`; `choice` is the draw of
`random.choice`, realised as index `choice % pool.length`. On an empty
candidate list the source returns `None`; with at least two candidates
the pool excludes the `last_played` file, and if that filter empties the
pool, `random.choice([])` raises `IndexError`. On success the state's
`last_played[category]` is set to the picked file and the joined path is
returned. -/
def pick_sound (pack_dir : String) (manifest : Manifest) (category : String)
    (state : State) (choice : Nat) : Except PyErr (Option String × State) :=
  let sounds := lookupD manifest.categories category []
  if sounds.isEmpty then .ok (none, state)
  else
    let last := lookupD state.last_played category ""
    let pool := if sounds.length ≤ 1 then sounds
                else sounds.filter (fun s => s.file != last)
    match pool with
    | [] => .error .indexError
    | p :: ps =>
      let pick := (p :: ps).get ⟨choice % (p :: ps).length, Nat.mod_lt _ (Nat.succ_pos _)⟩
      .ok (some (pack_dir ++ "/" ++ pick.file),
           { state with last_played := setAssoc state.last_played category pick.file })

/-- Adds a session id to the suppression set:
`agent_sessions.add(session_id)` on a Python `set`, modelled as
insert-if-absent on the list. -/
def addSession (sessions : List String) (sid : String) : List String :=
  if sessions.contains sid then sessions else sid :: sessions

/-- The state as persisted by the delegate-marking branch of `main`:
the loaded state with only `agent_sessions` grown by the event's
session id (`state['agent_sessions'] = list(agent_sessions)` after the
`add`). -/
def markedState (st : State) (sid : String) : State :=
  { st with agent_sessions := addSession st.agent_sessions sid }

/-- Characters of the final path component: scans the characters and
restarts the accumulator at every separator. -/
def basenameChars : List Char → List Char → List Char
  | [], acc => acc.reverse
  | c :: cs, acc =>
    if c = '/' then basenameChars cs [] else basenameChars cs (c :: acc)

/-- POSIX `os.path.basename`: everything after the last separator. -/
def basename (p : String) : String :=
  String.mk (basenameChars p.toList [])

/-- Embeds the project-name computation of `main`:
`os.path.basename(cwd) if cwd else 'claude'`, then keep only
alphanumerics and `' ._-'`, falling back to `'claude'` when nothing
survives. -/
def sanitizeProject (cwd : String) : String :=
  let project := if cwd = "" then "claude" else basename cwd
  let kept := String.mk (project.toList.filter
    (fun ch => ch.isAlphanum || ch == ' ' || ch == '.' || ch == '_' || ch == '-'))
  if kept = "" then "claude" else kept

/-- The classification result of `main`'s event-mapping chain: the
chosen category, status label, title marker, notification flag and
message, and the state as possibly mutated by `check_annoyed`. -/
structure Classified where
  category : String
  status : String
  marker : String
  notify : Bool
  msg : String
  state : State
deriving DecidableEq, Repr

/-- Embeds the event-mapping chain of `main` (the `if event_name == ...`
cascade). `none` is the source's early `return` for an unknown
`notification_type` or an unknown event name. Note the Python
short-circuit: when the `user.spam` toggle is explicitly false,
`check_annoyed` is never called and the timestamps are left alone. -/
def classify (config : Config) (state : State)
    (event_name ntype project : String) (now : Int) : Option Classified :=
  let cat_config := config.categories.getD []
  if event_name = "SessionStart" then
    some ⟨"session.start", "ready", "", false, "", state⟩
  else if event_name = "UserPromptSubmit" then
    let threshold := config.annoyed_threshold.getD 3
    let window := config.annoyed_window_seconds.getD 10
    if lookupD cat_config "user.spam" true then
      let checked := check_annoyed state threshold window now
      if checked.2 then
        some ⟨"user.spam", "working", "", false, "", checked.1⟩
      else if lookupD cat_config "task.acknowledge" true then
        some ⟨"task.acknowledge", "working", "", false, "", checked.1⟩
      else
        some ⟨"", "working", "", false, "", checked.1⟩
    else if lookupD cat_config "task.acknowledge" true then
      some ⟨"task.acknowledge", "working", "", false, "", state⟩
    else
      some ⟨"", "working", "", false, "", state⟩
  else if event_name = "Stop" then
    some ⟨"task.complete", "done", "* ", false, "", state⟩
  else if event_name = "Notification" then
    if ntype = "permission_prompt" then
      some ⟨"input.required", "needs approval", "* ", true,
            project ++ " -- A tool is waiting for your permission", state⟩
    else if ntype = "idle_prompt" then
      some ⟨"task.complete", "done", "* ", true,
            project ++ " -- Ready for your next instruction", state⟩
    else none
  else none

/-- The observable effects of one event-handling invocation. `title` is
the terminal-title escape written to stdout (none on the early-return
paths); `played` the sound file handed to the player; `notified` the
(title, message) of the desktop notification; `stateWrite` the document
saved to the state file (none when no save happens). -/
structure Outcome where
  category : String
  status : String
  marker : String
  title : Option String
  should_notify : Bool
  played : Option String
  notified : Option (String × String)
  stateWrite : Option State
deriving DecidableEq, Repr

/-- The outcome of a path that returns before producing any effect. -/
def noOutcome : Outcome :=
  { category := "", status := "", marker := "", title := none,
    should_notify := false, played := none, notified := none,
    stateWrite := none }

/-- The environment one invocation of `main` samples: the loaded config
and state documents, the parsed event, the pause marker, `time.time()`,
the active pack's parsed manifest, the `random.choice` draw, the focus
probe's verdict, `CLAUDE_PLUGIN_ROOT`, and the `os.path.isfile` test
applied to the picked sound path. -/
structure Env where
  config : Config
  state : State
  event : Event
  paused : Bool
  now : Int
  manifest : Manifest
  choice : Nat
  focused : Bool
  plugin_root : String
  isfile : String → Bool

/-- Embeds the play-sound block of `main`: gated on a nonempty (post
clearing) category and the absence of the pause marker, pick a sound,
and hand it to the player only when the file exists; the state carries
any `last_played` update made by `pick_sound` either way. -/
def soundStep (category pack_dir : String) (paused : Bool)
    (manifest : Manifest) (st : State) (choice : Nat)
    (isfile : String → Bool) : Except PyErr (Option String × State) :=
  if category ≠ "" ∧ paused = false then
    match pick_sound pack_dir manifest category st choice with
    | .error e => .error e
    | .ok (sf, st2) =>
      .ok ((match sf with
            | some f => if isfile f then some f else none
            | none => none), st2)
  else .ok (none, st)

/-- Embeds the tail of `main` after classification: the
category-enabled check that clears a disabled category, the title
write, `soundStep`, the single state save, and the desktop notification
gated on the notify flag, the pause marker, the config toggle and the
focus probe. -/
def finalize (config : Config) (paused focused : Bool) (manifest : Manifest)
    (choice : Nat) (plugin_root : String) (isfile : String → Bool)
    (project : String) (c : Classified) : Except PyErr Outcome :=
  let cat_config := config.categories.getD []
  let category := if c.category ≠ "" ∧ lookupD cat_config c.category true = false
                  then "" else c.category
  let title := c.marker ++ project ++ ": " ++ c.status
  let pack_dir := plugin_root ++ "/packs/" ++ config.active_pack.getD "peon"
  match soundStep category pack_dir paused manifest c.state choice isfile with
  | .error e => .error e
  | .ok (played, st2) =>
    let desktop_notif := config.desktop_notifications.getD true
    .ok { category := category, status := c.status, marker := c.marker,
          title := some title, should_notify := c.notify, played := played,
          notified := if c.notify = true ∧ paused = false ∧
                         desktop_notif = true ∧ focused = false
                      then some (title, c.msg) else none,
          stateWrite := some st2 }

/-- Embeds `main` from the point where the event has been parsed: the
`enabled` kill switch, the delegate-marking branch (which saves only the
grown suppression set and returns), the suppressed-session early return,
project-name computation, classification, and `finalize`. -/
def runMain (env : Env) : Except PyErr Outcome :=
  if env.config.enabled.getD true = false then .ok noOutcome
  else
    let session_id := env.event.session_id.getD ""
    if env.event.permission_mode.getD "" = "delegate" then
      .ok { noOutcome with stateWrite := some (markedState env.state session_id) }
    else if env.state.agent_sessions.contains session_id then .ok noOutcome
    else
      let project := sanitizeProject (env.event.cwd.getD "")
      match classify env.config env.state (env.event.hook_event_name.getD "")
              (env.event.notification_type.getD "") project env.now with
      | none => .ok noOutcome
      | some c => finalize env.config env.paused env.focused env.manifest
                    env.choice env.plugin_root env.isfile project c

/-- Embeds the stdin step of `main`: a `json.JSONDecodeError` from the
stdin read is caught and the handler returns silently; otherwise the
parsed event is processed. -/
def runHook (parsed : Option Event) (env : Env) : Except PyErr Outcome :=
  match parsed with
  | none => .ok noOutcome
  | some e => runMain { env with event := e }

deriving instance DecidableEq for Except

/-- The process exit code an invocation produces: 0 on a normal return,
1 when an exception escapes `main` (Python's exit code for an uncaught
exception). -/
def exitCode (r : Except PyErr Outcome) : Nat :=
  match r with
  | .ok _ => 0
  | .error _ => 1

/-- A quiet baseline environment: default config, empty state, an event
with every field absent, not paused, time 0, empty manifest, draw 0,
terminal not focused, empty plugin root, no file exists. The concrete
environments of the theorems below are modifications of it. -/
def baseEnv : Env :=
  { config := defaultConfig, state := emptyState,
    event := { hook_event_name := none, notification_type := none,
               cwd := none, session_id := none, permission_mode := none },
    paused := false, now := 0, manifest := { categories := [] },
    choice := 0, focused := false, plugin_root := "",
    isfile := fun _ => false }

/-- The end-to-end scenario input of the spec: a `permission_prompt`
notification from `/home/u/myproj`. -/
def envPermissionPrompt : Env :=
  { baseEnv with event := { baseEnv.event with
      hook_event_name := some "Notification",
      notification_type := some "permission_prompt",
      cwd := some "/home/u/myproj" } }

/-- A `Stop` event handled with a well-formed manifest whose
`task.complete` category lists the same file twice, and a state whose
`last_played` for that category is that file: the repeat filter empties
the pool and `random.choice` raises. -/
def envDupPool : Env :=
  { baseEnv with
    state := { emptyState with last_played := [("task.complete", "a.wav")] },
    event := { baseEnv.event with hook_event_name := some "Stop" },
    manifest := { categories :=
      [("task.complete", [{ file := "a.wav" }, { file := "a.wav" }])] } }

/-- A `UserPromptSubmit` event under a config that explicitly disables
the `user.spam` category, with one stored prompt timestamp. -/
def envSpamOff : Env :=
  { baseEnv with
    config := { defaultConfig with categories := some [("user.spam", false)] },
    state := { emptyState with prompt_timestamps := [0] },
    event := { baseEnv.event with hook_event_name := some "UserPromptSubmit" },
    now := 5 }

/-- A delegate-mode event arriving while the whole feature is disabled
in config. -/
def envDelegateDisabled : Env :=
  { baseEnv with
    config := { defaultConfig with enabled := some false },
    event := { baseEnv.event with
      hook_event_name := some "Stop",
      session_id := some "s",
      permission_mode := some "delegate" } }

/-- A delegate-mode event for session `"s"` under an enabled config. -/
def envDelegateMark : Env :=
  { baseEnv with
    event := { baseEnv.event with
      hook_event_name := some "Stop",
      session_id := some "s",
      permission_mode := some "delegate" } }

/-- A delegate-mode event with no `session_id` field, feature disabled. -/
def envNoSidDisabled : Env :=
  { baseEnv with
    config := { defaultConfig with enabled := some false },
    event := { baseEnv.event with permission_mode := some "delegate" } }

/-- A delegate-mode event with no `session_id` field, feature enabled. -/
def envNoSidMark : Env :=
  { baseEnv with
    event := { baseEnv.event with permission_mode := some "delegate" } }

/-- An environment whose config turns the whole feature off. -/
def envDisabled : Env :=
  { baseEnv with config := { defaultConfig with enabled := some false } }

/-- A plain `Stop` event against the default config. -/
def envStop : Env :=
  { baseEnv with event := { baseEnv.event with hook_event_name := some "Stop" } }

/-- A plain `UserPromptSubmit` event against the default config with
two stored prompt timestamps close to `now`. -/
def envPromptBurst : Env :=
  { baseEnv with
    state := { emptyState with prompt_timestamps := [98, 99] },
    event := { baseEnv.event with hook_event_name := some "UserPromptSubmit" },
    now := 100 }

/-- The outcome `envPromptBurst` produces: the three close prompts
reach the burst threshold, category `user.spam`, and the pruned
timestamps plus `now` are persisted. -/
def oBurst : Outcome :=
  { category := "user.spam", status := "working", marker := "",
    title := some "claude: working", should_notify := false,
    played := none, notified := none,
    stateWrite := some { last_played := [], prompt_timestamps := [98, 99, 100],
                         agent_sessions := [] } }

/-- A config equal to `cfg` except that the toggle for `cat` in
`categories` is explicitly false. -/
def disableCat (cfg : Config) (cat : String) : Config :=
  { cfg with categories := some (setAssoc (cfg.categories.getD []) cat false) }

/-- A manifest whose category `c` offers two distinct files. -/
def pickManifestW : Manifest :=
  { categories := [("c", [{ file := "a" }, { file := "b" }])] }

/-- A state remembering file `a` as the last pick for category `c`. -/
def pickStateW : State :=
  { last_played := [("c", "a")], prompt_timestamps := [], agent_sessions := [] }

/-! Helper lemmas shared by the claim theorems. -/

theorem find?_map_update {α : Type} (m : List (String × α)) (k : String) (v : α) :
    (m.map (fun p => if p.1 == k then (k, v) else p)).find? (fun p => p.1 == k)
      = if m.any (fun p => p.1 == k) then some (k, v) else none := by
  induction m with
  | nil => rfl
  | cons p m ih =>
    by_cases hp : p.1 == k
    · simp [List.find?, hp]
    · simp only [List.map_cons, List.any_cons, hp, Bool.false_or]
      rw [if_neg (by simp [hp])]
      simpa [List.find?, hp] using ih

theorem find?_append_of_none {α : Type} (m l : List (String × α)) (k : String)
    (h : m.find? (fun p => p.1 == k) = none) :
    (m ++ l).find? (fun p => p.1 == k) = l.find? (fun p => p.1 == k) := by
  induction m with
  | nil => rfl
  | cons p m ih =>
    simp only [List.find?, List.cons_append] at h ⊢
    cases hp : (p.1 == k) with
    | true => simp [hp] at h
    | false =>
      rw [hp] at h
      exact ih h

theorem lookupD_setAssoc_self {α : Type} (m : List (String × α)) (k : String)
    (v d : α) : lookupD (setAssoc m k v) k d = v := by
  unfold setAssoc lookupD
  by_cases h : m.any (fun p => p.1 == k)
  · rw [if_pos h, find?_map_update, if_pos h]
  · rw [if_neg h, find?_append_of_none]
    · simp [List.find?]
    · rw [List.find?_eq_none]
      intro p hp
      simp only [List.any_eq_true, not_exists, not_and] at h
      simpa using h p hp

theorem mem_addSession_self (sessions : List String) (sid : String) :
    sid ∈ addSession sessions sid := by
  unfold addSession
  split
  · next h => exact List.mem_of_elem_eq_true h
  · exact List.mem_cons_self _ _

theorem pick_sound_ok_state (pack_dir : String) (m : Manifest) (cat : String)
    (st : State) (r : Nat) (pr : Option String × State)
    (h : pick_sound pack_dir m cat st r = .ok pr) :
    pr.2.prompt_timestamps = st.prompt_timestamps ∧
    pr.2.agent_sessions = st.agent_sessions := by
  simp only [pick_sound] at h
  split at h
  · cases h
    exact ⟨rfl, rfl⟩
  · split at h
    · cases h
    · cases h
      exact ⟨rfl, rfl⟩

theorem soundStep_ok_state (category pack_dir : String) (paused : Bool)
    (man : Manifest) (st : State) (ch : Nat) (isf : String → Bool)
    (pr : Option String × State)
    (h : soundStep category pack_dir paused man st ch isf = .ok pr) :
    pr.2.prompt_timestamps = st.prompt_timestamps ∧
    pr.2.agent_sessions = st.agent_sessions := by
  simp only [soundStep] at h
  split at h
  · split at h
    · cases h
    · next sf st2 hpick =>
      cases h
      exact pick_sound_ok_state _ _ _ _ _ (sf, st2) hpick
  · cases h
    exact ⟨rfl, rfl⟩

theorem finalize_ok_fields (cfg : Config) (paused focused : Bool)
    (man : Manifest) (ch : Nat) (root : String) (isf : String → Bool)
    (project : String) (c : Classified) (o : Outcome)
    (h : finalize cfg paused focused man ch root isf project c = .ok o) :
    o.status = c.status ∧ o.marker = c.marker ∧
    o.title = some (c.marker ++ project ++ ": " ++ c.status) ∧
    o.should_notify = c.notify ∧
    ∃ st2, o.stateWrite = some st2 ∧
      st2.prompt_timestamps = c.state.prompt_timestamps ∧
      st2.agent_sessions = c.state.agent_sessions := by
  simp only [finalize] at h
  split at h
  · cases h
  · next played st2 heq =>
    cases h
    refine ⟨rfl, rfl, rfl, rfl, st2, rfl, ?_⟩
    exact soundStep_ok_state _ _ _ _ _ _ _ _ heq

theorem classify_stop (cfg : Config) (st : State) (nt project : String)
    (now : Int) :
    classify cfg st "Stop" nt project now
      = some ⟨"task.complete", "done", "* ", false, "", st⟩ := by
  simp [classify]

theorem classify_idle (cfg : Config) (st : State) (project : String)
    (now : Int) :
    classify cfg st "Notification" "idle_prompt" project now
      = some ⟨"task.complete", "done", "* ", true,
              project ++ " -- Ready for your next instruction", st⟩ := by
  simp [classify]

theorem finalize_cleared (cfg : Config) (paused focused : Bool)
    (man : Manifest) (ch : Nat) (root : String) (isf : String → Bool)
    (project : String) (c : Classified)
    (hne : c.category ≠ "")
    (hoff : lookupD (cfg.categories.getD []) c.category true = false) :
    finalize cfg paused focused man ch root isf project c =
      .ok { category := "", status := c.status, marker := c.marker,
            title := some (c.marker ++ project ++ ": " ++ c.status),
            should_notify := c.notify, played := none,
            notified := if c.notify = true ∧ paused = false ∧
                           cfg.desktop_notifications.getD true = true ∧
                           focused = false
                        then some (c.marker ++ project ++ ": " ++ c.status, c.msg)
                        else none,
            stateWrite := some c.state } := by
  simp only [finalize]
  rw [if_pos ⟨hne, hoff⟩]
  simp [soundStep]

theorem runMain_eq_finalize (env : Env) (c : Classified)
    (hen : env.config.enabled.getD true = true)
    (hpm : env.event.permission_mode.getD "" ≠ "delegate")
    (hsup : env.state.agent_sessions.contains (env.event.session_id.getD "") = false)
    (hc : classify env.config env.state (env.event.hook_event_name.getD "")
            (env.event.notification_type.getD "")
            (sanitizeProject (env.event.cwd.getD "")) env.now = some c) :
    runMain env
      = finalize env.config env.paused env.focused env.manifest env.choice
          env.plugin_root env.isfile (sanitizeProject (env.event.cwd.getD "")) c := by
  have hsup' : env.event.session_id.getD "" ∉ env.state.agent_sessions := by
    simpa using hsup
  simp [runMain, hen, hpm, hsup, hsup', hc]

theorem runMain_suppressed_output (env : Env)
    (hsup : env.state.agent_sessions.contains (env.event.session_id.getD "") = true) :
    ∃ o, runMain env = .ok o ∧ o.title = none ∧ o.played = none ∧
      o.notified = none ∧ o.should_notify = false ∧ o.category = "" := by
  have hsup' : env.event.session_id.getD "" ∈ env.state.agent_sessions := by
    simpa using hsup
  by_cases he : env.config.enabled.getD true = false
  · exact ⟨noOutcome, by simp [runMain, he], rfl, rfl, rfl, rfl, rfl⟩
  · by_cases hp : env.event.permission_mode.getD "" = "delegate"
    · refine ⟨{ noOutcome with
          stateWrite := some (markedState env.state (env.event.session_id.getD "")) },
        ?_, rfl, rfl, rfl, rfl, rfl⟩
      simp [runMain, he, hp]
    · exact ⟨noOutcome, by simp [runMain, he, hp, hsup, hsup'], rfl, rfl, rfl, rfl, rfl⟩

/-! Claim theorems. -/

/-- C1, counterexample: a delegate-mode event for session `"s"` arriving
while `config.enabled` is false is dropped by the `enabled` gate before
the marking code runs -- nothing is added to `agent_sessions` and
nothing is persisted, contradicting the claim that the session id of
every delegate-mode event is added and saved before any other
processing. -/
theorem delegate_marking_cex :
    envDelegateDisabled.event.permission_mode = some "delegate" ∧
    envDelegateDisabled.event.session_id = some "s" ∧
    runMain envDelegateDisabled = .ok noOutcome ∧
    noOutcome.stateWrite = none := by decide

/-- C1 (amended): provided `config.enabled` is not explicitly false
(the disabled gate runs first in the source), a delegate-mode event has
its session id added to `agent_sessions` before any other processing:
the invocation produces no title, no sound, no notification, and
persists exactly the loaded state with only the suppression set grown;
and any invocation whose session id is already flagged in the loaded
state produces no title, no sound, and no notification. -/
theorem delegate_marking_amended (env : Env)
    (hen : env.config.enabled.getD true = true)
    (hpm : env.event.permission_mode.getD "" = "delegate") :
    (runMain env = .ok { noOutcome with stateWrite := some (markedState env.state (env.event.session_id.getD "")) })
    ∧ env.event.session_id.getD ""
        ∈ (markedState env.state (env.event.session_id.getD "")).agent_sessions
    ∧ (markedState env.state (env.event.session_id.getD "")).last_played
        = env.state.last_played
    ∧ (markedState env.state (env.event.session_id.getD "")).prompt_timestamps
        = env.state.prompt_timestamps
    ∧ (∀ env2 : Env,
         env2.state.agent_sessions.contains (env2.event.session_id.getD "") = true →
         ∃ o, runMain env2 = .ok o ∧ o.title = none ∧ o.played = none ∧
           o.notified = none ∧ o.should_notify = false) := by
  refine ⟨?_, mem_addSession_self _ _, rfl, rfl, ?_⟩
  · simp [runMain, hen, hpm]
  · intro env2 h2
    obtain ⟨o, ho, h1, h2, h3, h4, _⟩ := runMain_suppressed_output env2 h2
    exact ⟨o, ho, h1, h2, h3, h4⟩

/-- C1 witness: the amended theorem applied to a concrete delegate-mode
event for session `"s"` under the default config. -/
theorem delegate_marking_amended_witness :
    envDelegateMark.config.enabled.getD true = true ∧
    envDelegateMark.event.permission_mode.getD "" = "delegate" ∧
    runMain envDelegateMark = .ok { noOutcome with stateWrite := some (markedState envDelegateMark.state "s") } :=
  ⟨by decide, by decide,
   (delegate_marking_amended envDelegateMark (by decide) (by decide)).1⟩

/-- C5: the end-to-end scenario -- a `permission_prompt` notification
from `/home/u/myproj` under the default config, no pause marker, an
unsuppressed session, and the focus probe reporting not focused, yields
category `input.required`, status `needs approval`, marker `* `, the
title `* myproj: needs approval`, `should_notify = true`, and a desktop
notification with the expected message. -/
theorem permission_prompt_end_to_end :
    runMain envPermissionPrompt =
      .ok { category := "input.required", status := "needs approval",
            marker := "* ", title := some "* myproj: needs approval",
            should_notify := true, played := none,
            notified := some ("* myproj: needs approval",
                              "myproj -- A tool is waiting for your permission"),
            stateWrite := some emptyState } := by decide

/-- C6: the handler does not always exit 0. A `Stop` event handled with
a manifest whose `task.complete` category lists `a.wav` twice, while
the state's `last_played` for that category is `a.wav`, makes the
repeat filter empty the pool and `random.choice([])` raise an uncaught
`IndexError`: the process exits 1. -/
theorem exit_zero_code_bug :
    runHook (some envDupPool.event) envDupPool = .error .indexError ∧
    exitCode (runHook (some envDupPool.event) envDupPool) = 1 := by decide

/-- C7: `load_json` does not recover from every corruption. On a file
that is absent (`FileNotFoundError`), unreadable (`OSError`), or
invalid JSON in valid UTF-8 (`JSONDecodeError`) it returns the
supplied fallback (or the empty document when none was supplied), and
a successful parse returns the parsed document; but a file whose bytes
are not valid UTF-8 -- corrupted data, hence "not valid structured
data" -- raises `UnicodeDecodeError`, which is in none of the three
caught classes and escapes uncaught, contradicting the claimed
never-raise contract. -/
theorem load_json_unicode_code_bug (fb d : Json) :
    load_json .unicodeError (some fb) = .error .unicodeDecodeError ∧
    load_json .unicodeError none = .error .unicodeDecodeError ∧
    load_json .fileNotFound (some fb) = .ok fb ∧
    load_json .decodeError (some fb) = .ok fb ∧
    load_json .osError (some fb) = .ok fb ∧
    load_json (.parsed d) (some fb) = .ok d ∧
    load_json (.parsed d) none = .ok d ∧
    load_json .fileNotFound none = .ok (Json.jobj []) ∧
    load_json .decodeError none = .ok (Json.jobj []) ∧
    load_json .osError none = .ok (Json.jobj []) :=
  ⟨rfl, rfl, rfl, rfl, rfl, rfl, rfl, rfl, rfl, rfl⟩

/-- C8: when `config.enabled` is false the handler returns before
classification: no category is selected, no sound is played, and no
state file write occurs, for every event and every prior state. -/
theorem disabled_no_selection_no_write (env : Env)
    (hdis : env.config.enabled.getD true = false) :
    runMain env = .ok noOutcome ∧ noOutcome.category = "" ∧
    noOutcome.played = none ∧ noOutcome.stateWrite = none := by
  refine ⟨?_, rfl, rfl, rfl⟩
  simp [runMain, hdis]

/-- C8 witness: the theorem applied to a concrete disabled config. -/
theorem disabled_no_selection_no_write_witness :
    envDisabled.config.enabled.getD true = false ∧
    (runMain envDisabled = .ok noOutcome ∧ noOutcome.category = "" ∧
     noOutcome.played = none ∧ noOutcome.stateWrite = none) :=
  ⟨by decide, disabled_no_selection_no_write envDisabled (by decide)⟩

/-- C10, counterexample: a delegate-mode event with no `session_id`
field arriving while `config.enabled` is false is dropped before the
marking code: the empty string is not added to `agent_sessions` and
nothing is persisted. -/
theorem empty_session_marking_cex :
    envNoSidDisabled.event.permission_mode = some "delegate" ∧
    envNoSidDisabled.event.session_id = none ∧
    runMain envNoSidDisabled = .ok noOutcome ∧
    noOutcome.stateWrite = none := by decide

/-- C10 (amended): provided `config.enabled` is not explicitly false, a
delegate-mode event with a missing or empty `session_id` persists a
state whose suppression set contains the empty string; thereafter every
invocation whose event lacks a `session_id` (defaulting to the empty
string) against a state whose suppression set contains the empty string
yields no title, no sound, and no notification. -/
theorem empty_session_suppression_amended (env : Env)
    (hen : env.config.enabled.getD true = true)
    (hpm : env.event.permission_mode.getD "" = "delegate")
    (hsid : env.event.session_id.getD "" = "") :
    (∃ st2, runMain env = .ok { noOutcome with stateWrite := some st2 } ∧
       "" ∈ st2.agent_sessions)
    ∧ (∀ env2 : Env, env2.event.session_id.getD "" = "" →
         "" ∈ env2.state.agent_sessions →
         ∃ o, runMain env2 = .ok o ∧ o.title = none ∧ o.played = none ∧
           o.notified = none) := by
  constructor
  · refine ⟨markedState env.state (env.event.session_id.getD ""), ?_, ?_⟩
    · simp [runMain, hen, hpm]
    · rw [hsid]
      exact mem_addSession_self _ _
  · intro env2 hs2 hm2
    have hc : env2.state.agent_sessions.contains (env2.event.session_id.getD "") = true := by
      rw [hs2]
      simpa using hm2
    obtain ⟨o, ho, h1, h2, h3, _, _⟩ := runMain_suppressed_output env2 hc
    exact ⟨o, ho, h1, h2, h3⟩

/-- C10 witness: the amended theorem applied to a concrete delegate
event with no `session_id` under the default config. -/
theorem empty_session_suppression_amended_witness :
    ∃ st2, runMain envNoSidMark = .ok { noOutcome with stateWrite := some st2 } ∧
      "" ∈ st2.agent_sessions :=
  (empty_session_suppression_amended envNoSidMark (by decide) (by decide)
    (by decide)).1

/-- C2: `check_annoyed` replaces the stored timestamps with exactly the
prior ones inside the window (`now - x < window`) plus `now` appended,
and reports a burst iff the count after the append reaches the
threshold; with threshold 3 and window 10, prompts at `t, t+1, t+2`
burst on the third while prompts at `t, t+1, t+15` never burst. -/
theorem check_annoyed_spec (st : State) (threshold window now t : Int)
    (ht : 1 ≤ threshold) (hw : 1 ≤ window) :
    ((check_annoyed st threshold window now).1.prompt_timestamps
       = st.prompt_timestamps.filter (fun x => now - x < window) ++ [now])
    ∧ ((check_annoyed st threshold window now).2 = true ↔
        threshold ≤ ((st.prompt_timestamps.filter (fun x => now - x < window)).length : Int) + 1)
    ∧ (check_annoyed emptyState 3 10 t).2 = false
    ∧ (check_annoyed (check_annoyed emptyState 3 10 t).1 3 10 (t + 1)).2 = false
    ∧ (check_annoyed (check_annoyed (check_annoyed emptyState 3 10 t).1 3 10 (t + 1)).1 3 10 (t + 2)).2 = true
    ∧ (check_annoyed (check_annoyed (check_annoyed emptyState 3 10 t).1 3 10 (t + 1)).1 3 10 (t + 15)).2 = false := by
  have e0 : (check_annoyed emptyState 3 10 t).1
      = { last_played := [], prompt_timestamps := [t], agent_sessions := [] } := by
    simp [check_annoyed, emptyState]
  have h1 : t + 1 - t < 10 := by omega
  have e1 : (check_annoyed (check_annoyed emptyState 3 10 t).1 3 10 (t + 1)).1
      = { last_played := [], prompt_timestamps := [t, t + 1], agent_sessions := [] } := by
    rw [e0]
    simp [check_annoyed, List.filter_cons, h1]
  refine ⟨rfl, ?_, ?_, ?_, ?_, ?_⟩
  · simp only [check_annoyed, decide_eq_true_eq, List.length_append,
      List.length_cons, List.length_nil]
    omega
  · simp [check_annoyed, emptyState]
  · rw [e0]
    simp [check_annoyed, List.filter_cons, h1]
  · rw [e1]
    have h2a : t + 2 - t < 10 := by omega
    have h2b : t + 2 - (t + 1) < 10 := by omega
    simp [check_annoyed, List.filter_cons, h2a, h2b]
  · rw [e1]
    have h3a : ¬ (t + 15 - t < 10) := by omega
    have h3b : ¬ (t + 15 - (t + 1) < 10) := by omega
    simp [check_annoyed, List.filter_cons, h3a, h3b]

/-- C2 witness: the theorem applied at `t = 0` with the default
threshold 3 and window 10 over an empty prior state. -/
theorem check_annoyed_spec_witness :
    (1 : Int) ≤ 3 ∧ (1 : Int) ≤ 10 ∧
    (check_annoyed emptyState 3 10 0).2 = false :=
  ⟨by decide, by decide,
   (check_annoyed_spec emptyState 3 10 0 0 (by decide) (by decide)).2.2.1⟩

/-- C3, counterexample: with `categories["user.spam"] = false`, a
`UserPromptSubmit` event short-circuits past `check_annoyed` (Python's
`and`), so the stored prompt timestamp `0` is persisted unchanged: the
current time 5 is neither appended nor is the list pruned, contradicting
the claim that the burst state is updated regardless of the category
toggles. -/
theorem spam_toggle_skips_timestamps_cex :
    runMain envSpamOff =
      .ok { category := "task.acknowledge", status := "working", marker := "",
            title := some "claude: working", should_notify := false,
            played := none, notified := none,
            stateWrite := some { last_played := [], prompt_timestamps := [0],
                                 agent_sessions := [] } }
    ∧ envSpamOff.now = 5
    ∧ ([0] : List Int)
        ≠ (envSpamOff.state.prompt_timestamps.filter (fun x => (5 : Int) - x < 10)) ++ [5] := by
  refine ⟨by decide, rfl, by decide⟩

/-- C3 (amended): for a `UserPromptSubmit` event that passes the
suppression and enabled gates and completes normally, the persisted
`prompt_timestamps` is the pruned-and-appended list whenever the
`user.spam` toggle is not explicitly false -- regardless of the
`task.acknowledge` toggle or of which category results -- and is the
unchanged loaded list when `user.spam` is explicitly false. -/
theorem prompt_timestamps_update_amended (env : Env) (o : Outcome)
    (hen : env.config.enabled.getD true = true)
    (hpm : env.event.permission_mode.getD "" ≠ "delegate")
    (hsup : env.state.agent_sessions.contains (env.event.session_id.getD "") = false)
    (hname : env.event.hook_event_name.getD "" = "UserPromptSubmit")
    (hok : runMain env = .ok o) :
    ∃ st2, o.stateWrite = some st2 ∧
      (lookupD (env.config.categories.getD []) "user.spam" true = true →
        st2.prompt_timestamps
          = env.state.prompt_timestamps.filter
              (fun x => env.now - x < env.config.annoyed_window_seconds.getD 10) ++ [env.now])
      ∧ (lookupD (env.config.categories.getD []) "user.spam" true = false →
        st2.prompt_timestamps = env.state.prompt_timestamps) := by
  by_cases hsp : lookupD (env.config.categories.getD []) "user.spam" true = true
  · have tail : ∀ cat : String,
        classify env.config env.state (env.event.hook_event_name.getD "")
          (env.event.notification_type.getD "")
          (sanitizeProject (env.event.cwd.getD "")) env.now
          = some ⟨cat, "working", "", false, "",
              (check_annoyed env.state (env.config.annoyed_threshold.getD 3)
                (env.config.annoyed_window_seconds.getD 10) env.now).1⟩ →
        ∃ st2, o.stateWrite = some st2 ∧
          (lookupD (env.config.categories.getD []) "user.spam" true = true →
            st2.prompt_timestamps
              = env.state.prompt_timestamps.filter
                  (fun x => env.now - x < env.config.annoyed_window_seconds.getD 10) ++ [env.now])
          ∧ (lookupD (env.config.categories.getD []) "user.spam" true = false →
            st2.prompt_timestamps = env.state.prompt_timestamps) := by
      intro cat hc
      rw [runMain_eq_finalize env _ hen hpm hsup hc] at hok
      obtain ⟨_, _, _, _, st2, hst2, hpt, _⟩ :=
        finalize_ok_fields _ _ _ _ _ _ _ _ _ _ hok
      refine ⟨st2, hst2, fun _ => ?_, fun hfalse => ?_⟩
      · rw [hpt]
        simp [check_annoyed]
      · rw [hsp] at hfalse
        cases hfalse
    by_cases hb : (check_annoyed env.state (env.config.annoyed_threshold.getD 3)
        (env.config.annoyed_window_seconds.getD 10) env.now).2 = true
    · exact tail "user.spam" (by rw [hname]; simp [classify, hsp, hb])
    · by_cases hack : lookupD (env.config.categories.getD []) "task.acknowledge" true = true
      · exact tail "task.acknowledge" (by rw [hname]; simp [classify, hsp, hb, hack])
      · exact tail "" (by
          rw [hname]
          simp [classify, hsp, hb, Bool.eq_false_iff.mpr hack])
  · have hspf : lookupD (env.config.categories.getD []) "user.spam" true = false :=
      Bool.eq_false_iff.mpr hsp
    have tail2 : ∀ cat : String,
        classify env.config env.state (env.event.hook_event_name.getD "")
          (env.event.notification_type.getD "")
          (sanitizeProject (env.event.cwd.getD "")) env.now
          = some ⟨cat, "working", "", false, "", env.state⟩ →
        ∃ st2, o.stateWrite = some st2 ∧
          (lookupD (env.config.categories.getD []) "user.spam" true = true →
            st2.prompt_timestamps
              = env.state.prompt_timestamps.filter
                  (fun x => env.now - x < env.config.annoyed_window_seconds.getD 10) ++ [env.now])
          ∧ (lookupD (env.config.categories.getD []) "user.spam" true = false →
            st2.prompt_timestamps = env.state.prompt_timestamps) := by
      intro cat hc
      rw [runMain_eq_finalize env _ hen hpm hsup hc] at hok
      obtain ⟨_, _, _, _, st2, hst2, hpt, _⟩ :=
        finalize_ok_fields _ _ _ _ _ _ _ _ _ _ hok
      refine ⟨st2, hst2, fun htrue => ?_, fun _ => hpt⟩
      rw [hspf] at htrue
      cases htrue
    by_cases hack : lookupD (env.config.categories.getD []) "task.acknowledge" true = true
    · exact tail2 "task.acknowledge" (by rw [hname]; simp [classify, hspf, hack])
    · exact tail2 "" (by
        rw [hname]
        simp [classify, hspf, Bool.eq_false_iff.mpr hack])

/-- C3 witness: the amended theorem applied to a concrete burst of
prompts under the default config. -/
theorem prompt_timestamps_update_amended_witness :
    ∃ st2, oBurst.stateWrite = some st2 ∧
      (lookupD (envPromptBurst.config.categories.getD []) "user.spam" true = true →
        st2.prompt_timestamps
          = envPromptBurst.state.prompt_timestamps.filter
              (fun x => envPromptBurst.now - x
                < envPromptBurst.config.annoyed_window_seconds.getD 10)
            ++ [envPromptBurst.now])
      ∧ (lookupD (envPromptBurst.config.categories.getD []) "user.spam" true = false →
        st2.prompt_timestamps = envPromptBurst.state.prompt_timestamps) :=
  prompt_timestamps_update_amended envPromptBurst oBurst (by decide) (by decide)
    (by decide) (by decide) (by decide)

/-- C4, counterexample: with two candidates that both carry the
identifier remembered in `last_played`, the repeat filter empties the
pool and the selector raises `IndexError` instead of returning a
candidate, contradicting the claim for lists of two or more entries. -/
theorem pick_sound_empty_pool_cex :
    pick_sound "packs/peon"
      { categories := [("c", [{ file := "a" }, { file := "a" }])] } "c"
      { last_played := [("c", "a")], prompt_timestamps := [],
        agent_sessions := [] } 0
      = .error .indexError := by decide

theorem pick_sound_eq_of_get? (pack_dir cat : String) (m : Manifest)
    (st : State) (r : Nat) (sounds : List Sound) (pick : Sound)
    (hs : lookupD m.categories cat [] = sounds)
    (hlen : ¬ sounds.length ≤ 1)
    (hpick : (sounds.filter (fun s => s.file != lookupD st.last_played cat "")).get?
        (r % (sounds.filter (fun s => s.file != lookupD st.last_played cat "")).length)
      = some pick) :
    pick_sound pack_dir m cat st r
      = .ok (some (pack_dir ++ "/" ++ pick.file),
             { st with last_played := setAssoc st.last_played cat pick.file }) := by
  have hnil : sounds ≠ [] := by
    intro h
    subst h
    simp at hlen
  have hie : sounds.isEmpty = false := by
    cases sounds
    · exact absurd rfl hnil
    · rfl
  simp only [pick_sound, hs]
  rw [if_neg (by simp [hie]), if_neg hlen]
  rcases hfl : sounds.filter (fun s => s.file != lookupD st.last_played cat "") with _ | ⟨p, ps⟩
  · rw [hfl] at hpick
    simp at hpick
  · rw [hfl] at hpick ⊢
    have hlt : r % (p :: ps).length < (p :: ps).length :=
      Nat.mod_lt _ (Nat.succ_pos _)
    rw [List.get?_eq_get hlt] at hpick
    obtain rfl : (p :: ps).get ⟨r % (p :: ps).length, hlt⟩ = pick :=
      Option.some.inj hpick
    rfl

/-- C4 (amended): an empty candidate list yields no pick and an
unchanged state; a singleton is returned even when it equals
`last_played`, updating `last_played`; with two or more candidates,
whenever at least one candidate's identifier differs from `last_played`
(in particular whenever the identifiers are distinct), the pick is the
`choice mod n`-th element of the pool that excludes `last_played` --
each pool element being the pick for the draws congruent to its index,
which is the uniform distribution over the pool for a uniform draw --
its identifier differs from `last_played`, and `last_played[category]`
is updated to it; with candidates `a, b` of distinct identifiers and
`last_played = a`, the pick is `b` for every draw. The claim fails only
when every candidate of a multi-entry pool equals `last_played` (see
the counterexample), where the source raises instead of returning. -/
theorem pick_sound_amended (pack_dir cat : String) (m : Manifest)
    (st : State) (r : Nat) :
    (lookupD m.categories cat [] = [] →
      pick_sound pack_dir m cat st r = .ok (none, st))
    ∧ (∀ s : Sound, lookupD m.categories cat [] = [s] →
        pick_sound pack_dir m cat st r
          = .ok (some (pack_dir ++ "/" ++ s.file),
                 { st with last_played := setAssoc st.last_played cat s.file }))
    ∧ (∀ sounds : List Sound, lookupD m.categories cat [] = sounds →
        2 ≤ sounds.length →
        sounds.filter (fun s => s.file != lookupD st.last_played cat "") ≠ [] →
        ∃ pick : Sound,
          (sounds.filter (fun s => s.file != lookupD st.last_played cat "")).get?
              (r % (sounds.filter (fun s => s.file != lookupD st.last_played cat "")).length)
            = some pick
          ∧ pick ∈ sounds.filter (fun s => s.file != lookupD st.last_played cat "")
          ∧ pick.file ≠ lookupD st.last_played cat ""
          ∧ pick_sound pack_dir m cat st r
              = .ok (some (pack_dir ++ "/" ++ pick.file),
                     { st with last_played := setAssoc st.last_played cat pick.file })
          ∧ (∀ (i : Nat) (q : Sound),
              i < (sounds.filter (fun s => s.file != lookupD st.last_played cat "")).length →
              (sounds.filter (fun s => s.file != lookupD st.last_played cat "")).get? i = some q →
              pick_sound pack_dir m cat st i
                = .ok (some (pack_dir ++ "/" ++ q.file),
                       { st with last_played := setAssoc st.last_played cat q.file })))
    ∧ (∀ a b : Sound, lookupD m.categories cat [] = [a, b] → a.file ≠ b.file →
        lookupD st.last_played cat "" = a.file →
        pick_sound pack_dir m cat st r
          = .ok (some (pack_dir ++ "/" ++ b.file),
                 { st with last_played := setAssoc st.last_played cat b.file })) := by
  refine ⟨?_, ?_, ?_, ?_⟩
  · intro h
    simp [pick_sound, h]
  · intro s hs
    simp [pick_sound, hs, Nat.mod_one]
  · intro sounds hs h2 hne
    have hlen : ¬ sounds.length ≤ 1 := by omega
    have hpos : 0 < (sounds.filter (fun s => s.file != lookupD st.last_played cat "")).length :=
      List.length_pos.mpr hne
    have hlt : r % (sounds.filter (fun s => s.file != lookupD st.last_played cat "")).length
        < (sounds.filter (fun s => s.file != lookupD st.last_played cat "")).length :=
      Nat.mod_lt _ hpos
    refine ⟨_, List.get?_eq_get hlt, ?_, ?_,
      pick_sound_eq_of_get? pack_dir cat m st r sounds _ hs hlen (List.get?_eq_get hlt), ?_⟩
    · exact List.get_mem _ _ _
    · have hmem : (sounds.filter (fun s => s.file != lookupD st.last_played cat "")).get
          ⟨r % (sounds.filter (fun s => s.file != lookupD st.last_played cat "")).length, hlt⟩
          ∈ sounds.filter (fun s => s.file != lookupD st.last_played cat "") :=
        List.get_mem _ _ _
      have hp := List.of_mem_filter hmem
      simpa [bne_iff_ne] using hp
    · intro i q hi hq
      exact pick_sound_eq_of_get? pack_dir cat m st i sounds q hs hlen
        (by rwa [Nat.mod_eq_of_lt hi])
  · intro a b hs hab hlast
    have hb : (b.file != a.file) = true := bne_iff_ne.mpr (Ne.symm hab)
    have hfl : ([a, b] : List Sound).filter (fun s => s.file != lookupD st.last_played cat "")
        = [b] := by
      rw [hlast]
      simp [List.filter_cons, hb]
    exact pick_sound_eq_of_get? pack_dir cat m st r [a, b] b hs (by simp)
      (by rw [hfl]; simp [Nat.mod_one])

/-- C4 witness: the amended theorem's two-candidate clause applied to a
pool `a, b` with `last_played = a`: every draw returns `b`. -/
theorem pick_sound_amended_witness :
    pick_sound "p" pickManifestW "c" pickStateW 7
      = .ok (some ("p" ++ "/" ++ (Sound.mk "b").file),
             { pickStateW with
               last_played := setAssoc pickStateW.last_played "c" (Sound.mk "b").file }) :=
  (pick_sound_amended "p" "c" pickManifestW pickStateW 7).2.2.2
    ⟨"a"⟩ ⟨"b"⟩ (by decide) (by decide) (by decide)

/-- C9: with `categories["task.complete"]` set to false, a `Stop` event
or an `idle_prompt` notification (passing the suppression and enabled
gates) selects no sound -- no pick happens and the state is saved
exactly as loaded -- while the status stays `done`, the marker stays
`* `, and the written title equals the title of the same invocation
with the toggle left alone (in particular enabled). -/
theorem task_complete_toggle_spec (env : Env)
    (hen : env.config.enabled.getD true = true)
    (hpm : env.event.permission_mode.getD "" ≠ "delegate")
    (hsup : env.state.agent_sessions.contains (env.event.session_id.getD "") = false)
    (hev : env.event.hook_event_name.getD "" = "Stop" ∨
           (env.event.hook_event_name.getD "" = "Notification" ∧
            env.event.notification_type.getD "" = "idle_prompt")) :
    ∃ o, runMain { env with config := disableCat env.config "task.complete" } = .ok o
      ∧ o.category = "" ∧ o.played = none ∧ o.stateWrite = some env.state
      ∧ o.status = "done" ∧ o.marker = "* "
      ∧ o.title = some ("* " ++ sanitizeProject (env.event.cwd.getD "") ++ ": done")
      ∧ (∀ o2, runMain env = .ok o2 →
           o2.status = o.status ∧ o2.marker = o.marker ∧ o2.title = o.title) := by
  obtain ⟨nv, mg, hcB⟩ : ∃ nv mg, ∀ cfg : Config,
      classify cfg env.state (env.event.hook_event_name.getD "")
        (env.event.notification_type.getD "")
        (sanitizeProject (env.event.cwd.getD "")) env.now
      = some ⟨"task.complete", "done", "* ", nv, mg, env.state⟩ := by
    rcases hev with h | ⟨h1, h2⟩
    · exact ⟨false, "", fun cfg => by
        rw [h]; exact classify_stop cfg env.state _ _ env.now⟩
    · exact ⟨true,
        sanitizeProject (env.event.cwd.getD "") ++ " -- Ready for your next instruction",
        fun cfg => by
          rw [h1, h2]; exact classify_idle cfg env.state _ env.now⟩
  have hoff : lookupD ((disableCat env.config "task.complete").categories.getD [])
      "task.complete" true = false :=
    lookupD_setAssoc_self _ _ _ _
  have hrOff := runMain_eq_finalize
    { env with config := disableCat env.config "task.complete" }
    ⟨"task.complete", "done", "* ", nv, mg, env.state⟩ hen hpm hsup
    (hcB (disableCat env.config "task.complete"))
  have hfin := finalize_cleared (disableCat env.config "task.complete")
    env.paused env.focused env.manifest env.choice env.plugin_root env.isfile
    (sanitizeProject (env.event.cwd.getD ""))
    ⟨"task.complete", "done", "* ", nv, mg, env.state⟩ (by simp) hoff
  refine ⟨_, hrOff.trans hfin, rfl, rfl, rfl, rfl, rfl, ?_, ?_⟩
  · show some ("* " ++ sanitizeProject (env.event.cwd.getD "") ++ ": " ++ "done")
      = some ("* " ++ sanitizeProject (env.event.cwd.getD "") ++ ": done")
    rw [String.append_assoc]
    rfl
  · intro o2 ho2
    rw [runMain_eq_finalize env
      ⟨"task.complete", "done", "* ", nv, mg, env.state⟩ hen hpm hsup
      (hcB env.config)] at ho2
    obtain ⟨hs, hm, hti, _, _⟩ := finalize_ok_fields _ _ _ _ _ _ _ _ _ _ ho2
    exact ⟨hs, hm, hti⟩

/-- C9 witness: the theorem applied to a concrete `Stop` event under
the default config. -/
theorem task_complete_toggle_spec_witness :
    ∃ o, runMain { envStop with config := disableCat envStop.config "task.complete" } = .ok o
      ∧ o.category = "" ∧ o.played = none ∧ o.stateWrite = some envStop.state
      ∧ o.status = "done" ∧ o.marker = "* "
      ∧ o.title = some ("* " ++ sanitizeProject (envStop.event.cwd.getD "") ++ ": done")
      ∧ (∀ o2, runMain envStop = .ok o2 →
           o2.status = o.status ∧ o2.marker = o.marker ∧ o2.title = o.title) :=
  task_complete_toggle_spec envStop (by decide) (by decide) (by decide)
    (Or.inl (by decide))
